import Mathlib

/-!
Shallow embedding of `voc/python/methods.py`.

The file embeds, from the source:
* the parameter classifier `extract_parameters` (a code object's arity
  metadata to an ordered list of parameter descriptors),
* the local-variable slot table built by `Method.__init__`,
* the descriptor builder `Method.signature`,
* the prologue generators (`tweak`) of the four callable variants
  (`Method`, `InitMethod`, `InstanceMethod`, `MainMethod`),
* the exported method record produced by `Method.transpile`.

Python dicts are embedded as insertion-ordered association lists, fallible
indexing as `Except`, and Python `None` as an explicit value constructor.
-/

/-- A Python runtime value as far as this module observes one: `None`, an
integer, or a string (annotation and default payloads). -/
inductive PyVal
  | none
  | int (n : Int)
  | str (s : String)
  deriving DecidableEq, Repr

/-- Python exceptions that the classifier's indexing operations can raise:
`TypeError` from subscripting `None`, `IndexError` from an out-of-range
sequence index. -/
inductive ClassifyError
  | typeError
  | indexError
  deriving DecidableEq, Repr

/-- Python `d.get(k)` on a string-keyed dict whose values are `PyVal`s,
returning Python `None` when the key is absent. -/
def pyGet (d : List (String × PyVal)) (k : String) : PyVal :=
  match d.find? (fun p => p.1 == k) with
  | some p => p.2
  | Option.none => PyVal.none

/-- Python `d.get(k, sentinel) is None`: the key is present and its value is
`None`. Used by `Method.signature`. -/
def pyGetIsNone (d : List (String × PyVal)) (k : String) : Bool :=
  match d.find? (fun p => p.1 == k) with
  | some p => p.2 == PyVal.none
  | Option.none => false

/-- Python `seq[i]` where `seq : Optional[list]`: subscripting `None` raises
`TypeError`; an out-of-range index raises `IndexError`. -/
def pyIndex (seq : Option (List PyVal)) (i : Nat) : Except ClassifyError PyVal :=
  match seq with
  | Option.none => Except.error ClassifyError.typeError
  | some l =>
    match l.get? i with
    | some v => Except.ok v
    | Option.none => Except.error ClassifyError.indexError

def POSITIONAL_OR_KEYWORD : Nat := 1
def VAR_POSITIONAL : Nat := 2
def KEYWORD_ONLY : Nat := 3
def VAR_KEYWORD : Nat := 4

def CO_VARARGS : Nat := 0x0004
def CO_VARKEYWORDS : Nat := 0x0008

/-- One classified parameter descriptor, the dict
`{name, annotation, kind[, default]}` built by `extract_parameters`:
`default := Option.none` models a dict without the `'default'` key, and
`default := some v` a dict whose `'default'` entry holds `v`. -/
structure Parameter where
  name : String
  annotation : PyVal
  kind : Nat
  default : Option PyVal
  deriving DecidableEq, Repr

/-- The fields of a Python code object read by `extract_parameters`. -/
structure CodeObject where
  co_argcount : Nat
  co_varnames : List String
  co_kwonlyargcount : Nat
  co_flags : Nat
  deriving DecidableEq, Repr

/-- `extract_parameters(code)` translated clause by clause from the source:
annotations are hardcoded to `{}` and both default sources to `None`
(the source comments them out as `# func.__annotations__` etc.), tuple
slicing clamps, and single-element tuple indexing may raise `IndexError`. -/
def extract_parameters (code : CodeObject) : Except ClassifyError (List Parameter) :=
  let pos_count := code.co_argcount
  let arg_names := code.co_varnames
  let positional := arg_names.take pos_count
  let keyword_only_count := code.co_kwonlyargcount
  let keyword_only := (arg_names.drop pos_count).take keyword_only_count
  let annotations : List (String × PyVal) := []
  let defs : Option (List PyVal) := Option.none
  let kwdefaults : Option (List (String × PyVal)) := Option.none
  let pos_default_count :=
    match defs with
    | some d => d.length
    | Option.none => 0
  let non_default_count := pos_count - pos_default_count
  let noDefault : List Parameter :=
    (positional.take non_default_count).map (fun name =>
      { name := name,
        annotation := pyGet annotations name,
        kind := POSITIONAL_OR_KEYWORD,
        default := Option.none })
  match ((positional.drop non_default_count).enum.mapM (fun p =>
      (pyIndex defs p.1).map (fun d =>
        ({ name := p.2,
           annotation := pyGet annotations p.2,
           kind := POSITIONAL_OR_KEYWORD,
           default := some d } : Parameter)))) with
  | Except.error e => Except.error e
  | Except.ok withDefault =>
  match (if code.co_flags &&& CO_VARARGS ≠ 0 then
      match arg_names.get? (pos_count + keyword_only_count) with
      | some name =>
          Except.ok [({ name := name,
                        annotation := pyGet annotations name,
                        kind := VAR_POSITIONAL,
                        default := Option.none } : Parameter)]
      | Option.none => Except.error ClassifyError.indexError
    else Except.ok []) with
  | Except.error e => Except.error e
  | Except.ok varargs =>
  let kwOnly : List Parameter :=
    keyword_only.map (fun name =>
      let d : PyVal :=
        match kwdefaults with
        | Option.none => PyVal.none
        | some m => pyGet m name
      { name := name,
        annotation := pyGet annotations name,
        kind := KEYWORD_ONLY,
        default := some d })
  match (if code.co_flags &&& CO_VARKEYWORDS ≠ 0 then
      let index := pos_count + keyword_only_count +
        (if code.co_flags &&& CO_VARARGS ≠ 0 then 1 else 0)
      match arg_names.get? index with
      | some name =>
          Except.ok [({ name := name,
                        annotation := pyGet annotations name,
                        kind := VAR_KEYWORD,
                        default := Option.none } : Parameter)]
      | Option.none => Except.error ClassifyError.indexError
    else Except.ok []) with
  | Except.error e => Except.error e
  | Except.ok varkw =>
  Except.ok (noDefault ++ withDefault ++ varargs ++ kwOnly ++ varkw)

example :
    extract_parameters
      { co_argcount := 2, co_varnames := ["a", "b", "c", "d", "args", "kw"],
        co_kwonlyargcount := 2, co_flags := 12 } =
    Except.ok
      [ { name := "a", annotation := PyVal.none, kind := POSITIONAL_OR_KEYWORD,
          default := Option.none },
        { name := "b", annotation := PyVal.none, kind := POSITIONAL_OR_KEYWORD,
          default := Option.none },
        { name := "args", annotation := PyVal.none, kind := VAR_POSITIONAL,
          default := Option.none },
        { name := "c", annotation := PyVal.none, kind := KEYWORD_ONLY,
          default := some PyVal.none },
        { name := "d", annotation := PyVal.none, kind := KEYWORD_ONLY,
          default := some PyVal.none },
        { name := "kw", annotation := PyVal.none, kind := VAR_KEYWORD,
          default := Option.none } ] := by rfl

example :
    extract_parameters
      { co_argcount := 0, co_varnames := [], co_kwonlyargcount := 0,
        co_flags := 8 } = Except.error ClassifyError.indexError := by rfl

/-- Abstract instructions, the operations that the prologue generators emit:
named-local loads and stores (`ALOAD_name`, `ASTORE_name` from the opcodes
module), constant pushes (`ICONST_val`), `AALOAD`, `ALOAD_0`,
`INVOKESPECIAL`, plus the no-value return appended by return shaping. -/
inductive Ins
  | aloadName (name : String)
  | astoreName (name : String)
  | iconst (v : Nat)
  | aaload
  | aload0
  | invokespecial (klass meth descriptor : String)
  | returnVoid
  deriving DecidableEq, Repr

/-- Modelled from the spec: `ALOAD_name` comes from the missing opcodes
module; the spec's instruction interface identifies the operation by the
local's name ("store-named-local"/"load" abstract operations, spec section 6),
so the slot table argument only matters at assembly time. -/
def ALOAD_name (_localvars : List (String × Nat)) (name : String) : Ins :=
  Ins.aloadName name

/-- Modelled from the spec: `ASTORE_name` from the missing opcodes module,
the store-named-local abstract operation. -/
def ASTORE_name (_localvars : List (String × Nat)) (name : String) : Ins :=
  Ins.astoreName name

/-- Modelled from the spec: `ICONST_val` from the missing opcodes module,
the push-constant abstract operation. -/
def ICONST_val (v : Nat) : Ins :=
  Ins.iconst v

/-- Python dict assignment `d[k] = v` on an insertion-ordered dict:
overwrite in place when the key exists, append otherwise. -/
def dictSet (d : List (String × Nat)) (k : String) (v : Nat) : List (String × Nat) :=
  if d.any (fun p => p.1 == k) then
    d.map (fun p => if p.1 == k then (k, v) else p)
  else d ++ [(k, v)]

/-- Python `len(d)` on the local-variable dict. -/
def dictLen (d : List (String × Nat)) : Nat := d.length

/-- The four callable variants of the source: `Method` (plain function),
`InitMethod` (constructor), `InstanceMethod`, `MainMethod` (entry point). -/
inductive MKind
  | plainMethod
  | initMethod
  | instanceMethod
  | mainMethod
  deriving DecidableEq, Repr

/-- Which variants override `add_self` to reserve a `self` slot
(`InitMethod.add_self`, `InstanceMethod.add_self`). -/
def hasReceiver : MKind → Bool
  | MKind.initMethod => true
  | MKind.instanceMethod => true
  | _ => false

/-- The local slot reservations of `Method.__init__`: `add_self()` (a `self`
slot for the receiver variants, nothing otherwise), then the two hidden
container slots `##__args__##` and `##__kwargs__##`, then one slot per
visible parameter in order, each assigned `len(self.localvars)`. -/
def buildLocalvars (kind : MKind) (parameters : List String) : List (String × Nat) :=
  let d0 : List (String × Nat) := []
  let d1 := if hasReceiver kind then dictSet d0 "self" (dictLen d0) else d0
  let d2 := dictSet d1 "##__args__##" (dictLen d1)
  let d3 := dictSet d2 "##__kwargs__##" (dictLen d2)
  parameters.foldl (fun d name => dictSet d name (dictLen d)) d3

/-- A constructed `Method` object: the fields of `Method.__init__` that the
claims observe. `parameters` keeps only each parameter dict's `'name'` entry,
the sole key the source ever reads from it. -/
structure Method where
  kind : MKind
  name : String
  parameters : List String
  returns : List (String × PyVal)
  static : Bool
  localvars : List (String × Nat)
  deriving DecidableEq, Repr

/-- `Method.__init__`: record name, parameters and returns (`None` becomes
`{}`), reserve the local slots, record staticness. -/
def Method.make (kind : MKind) (name : String) (parameters : List String)
    (returns : Option (List (String × PyVal))) (static : Bool) : Method :=
  { kind := kind,
    name := name,
    parameters := parameters,
    returns :=
      match returns with
      | Option.none => []
      | some r => r,
    static := static,
    localvars := buildLocalvars kind parameters }

/-- `InitMethod.__init__`: name `__init__`, the declared parameter list minus
its first entry (`parameters[1:]`, which is `[]` when the list is empty),
returns `{'annotation': None}`, non-static. -/
def InitMethod.make (parameters : List String) : Method :=
  Method.make MKind.initMethod "__init__" (parameters.drop 1)
    (some [("annotation", PyVal.none)]) false

/-- `InstanceMethod.__init__`: the declared parameter list minus its first
entry (`parameters[1:]`, which is `[]` when the list is empty). -/
def InstanceMethod.make (name : String) (parameters : List String)
    (returns : Option (List (String × PyVal))) (static : Bool) : Method :=
  Method.make MKind.instanceMethod name (parameters.drop 1) returns static

/-- `MainMethod.__init__`: name `__main__`, the fixed parameter list
`[{'name': 'args', 'annotation': 'argv'}]`, returns `{'annotation': None}`,
static. -/
def MainMethod.make : Method :=
  Method.make MKind.mainMethod "__main__" ["args"]
    (some [("annotation", PyVal.none)]) true

/-- `method_name`: `<init>` for `InitMethod`, `main` for `MainMethod`,
otherwise the declared name. -/
def Method.method_name (m : Method) : String :=
  match Method.kind m with
  | MKind.initMethod => "<init>"
  | MKind.mainMethod => "main"
  | _ => Method.name m

/-- `signature`: `MainMethod` overrides it to the fixed entry-point
descriptor; every other variant uses the fixed boxed parameter pair with
return token `V` exactly when `self.returns.get('annotation', object())
is None`, i.e. when the `'annotation'` entry is present and `None`. -/
def Method.signature (m : Method) : String :=
  match Method.kind m with
  | MKind.mainMethod => "([Ljava/lang/String;)V"
  | _ =>
    let return_descriptor :=
      if pyGetIsNone (Method.returns m) "annotation" then "V"
      else "Lorg/python/Object;"
    "([Lorg/python/Object;Ljava/util/Hashtable;)" ++ return_descriptor

/-- The parameter-unpack loop shared verbatim by `Method.tweak` and
`InitMethod.tweak`: for each visible parameter at position `i`, load the
positional-argument container, push `i`, `AALOAD`, store into the
parameter's named local. -/
def unpackSetup (m : Method) : List Ins :=
  (Method.parameters m).enum.flatMap (fun p =>
    [ ALOAD_name (Method.localvars m) "##__args__##",
      ICONST_val p.1,
      Ins.aaload,
      ASTORE_name (Method.localvars m) p.2 ])

/-- Modelled from the spec: `void_return` from the missing blocks module
wraps the sequence "so that control falls through to a guaranteed no-value
return" (spec section 4.5 step 4); modelled as appending a no-value return. -/
def void_return (code : List Ins) : List Ins := code ++ [Ins.returnVoid]

/-- Modelled from the spec: `ignore_empty` from the missing blocks module
must "tolerate and correctly emit a minimal valid method body when the
user-supplied body is empty"; on a non-empty sequence it changes nothing. -/
def ignore_empty (code : List Ins) : List Ins :=
  if code.isEmpty then [Ins.returnVoid] else code

/-- The `tweak` methods of the four variants. `Method.tweak` unpacks the
visible parameters; `InstanceMethod.tweak` first unpacks index 0 of the
positional-argument container into `self`, then defers to `Method.tweak`;
`InitMethod.tweak` unpacks the visible parameters, then (with the FIXME
scan for an existing call left unimplemented, so `super_found` stays
`False`) appends `ALOAD_0; INVOKESPECIAL klass.super_name.<init>()V`;
`MainMethod.tweak` performs no unpacking at all. `super_name` stands for
`self.klass.super_name`, read from the owning scope. -/
def Method.tweak (m : Method) (code : List Ins) (super_name : String) : List Ins :=
  match Method.kind m with
  | MKind.plainMethod => void_return (unpackSetup m ++ code)
  | MKind.instanceMethod =>
      [ ALOAD_name (Method.localvars m) "##__args__##",
        ICONST_val 0,
        Ins.aaload,
        ASTORE_name (Method.localvars m) "self" ]
      ++ void_return (unpackSetup m ++ code)
  | MKind.initMethod =>
      let super_found := false
      let setup := unpackSetup m
      let setup2 :=
        if super_found then setup
        else setup ++
          [ Ins.aload0,
            Ins.invokespecial super_name "<init>" "()V" ]
      ignore_empty (void_return (setup2 ++ code))
  | MKind.mainMethod => ignore_empty (void_return code)

/-- The exported method record (`JavaMethod(name, descriptor, static=...,
attributes=[code])`). -/
structure JavaMethod where
  name : String
  descriptor : String
  static : Bool
  code : List Ins
  deriving DecidableEq, Repr

/-- `Method.transpile`: export the method record. Modelled from the spec:
the generic `Block.transpile` of the missing blocks module produces the
code unit that the variant's `tweak` wraps around the body instructions
(spec sections 2 and 6), so the exported code is `tweak` of the body. -/
def Method.transpile (m : Method) (code : List Ins) (super_name : String) : JavaMethod :=
  { name := Method.method_name m,
    descriptor := Method.signature m,
    static := Method.static m,
    code := Method.tweak m code super_name }

example :
    Method.localvars (InstanceMethod.make "f" ["self", "x", "y"] Option.none false) =
      [("self", 0), ("##__args__##", 1), ("##__kwargs__##", 2), ("x", 3), ("y", 4)] := by rfl

example :
    Method.tweak (InitMethod.make ["self", "x"]) [] "org/python/Parent" =
      [ Ins.aloadName "##__args__##", Ins.iconst 0, Ins.aaload, Ins.astoreName "x",
        Ins.aload0, Ins.invokespecial "org/python/Parent" "<init>" "()V",
        Ins.returnVoid ] := by rfl

example :
    Method.tweak (InstanceMethod.make "f" ["self", "x"] Option.none false) [Ins.aload0] "" =
      [ Ins.aloadName "##__args__##", Ins.iconst 0, Ins.aaload, Ins.astoreName "self",
        Ins.aloadName "##__args__##", Ins.iconst 0, Ins.aaload, Ins.astoreName "x",
        Ins.aload0, Ins.returnVoid ] := by rfl

example : Method.signature (InitMethod.make ["self"]) =
    "([Lorg/python/Object;Ljava/util/Hashtable;)V" := by rfl

example : Method.signature (Method.make MKind.plainMethod "f" [] Option.none false) =
    "([Lorg/python/Object;Ljava/util/Hashtable;)Lorg/python/Object;" := by rfl

example : Method.transpile MainMethod.make [] "" =
    { name := "main", descriptor := "([Ljava/lang/String;)V", static := true,
      code := [Ins.returnVoid] } := by rfl

/-! ## Characterization of the classifier -/

/-- The positional block the classifier emits: every name of
`co_varnames[0:co_argcount]`, `POSITIONAL_OR_KEYWORD`, annotation `None`,
no default entry. -/
def posBlock (code : CodeObject) : List Parameter :=
  (code.co_varnames.take code.co_argcount).map (fun name =>
    { name := name,
      annotation := PyVal.none,
      kind := POSITIONAL_OR_KEYWORD,
      default := Option.none })

/-- The keyword-only block the classifier emits: the `co_kwonlyargcount`
names after the positional block, `KEYWORD_ONLY`, annotation `None`,
default entry present and `None`. -/
def kwBlock (code : CodeObject) : List Parameter :=
  ((code.co_varnames.drop code.co_argcount).take code.co_kwonlyargcount).map
    (fun name =>
      { name := name,
        annotation := PyVal.none,
        kind := KEYWORD_ONLY,
        default := some PyVal.none })

/-- The `*args` fragment: empty when `CO_VARARGS` is clear, otherwise the
single `VAR_POSITIONAL` parameter named by raw index
`co_argcount + co_kwonlyargcount`, or `IndexError` when that index is out
of range. -/
def varargsPart (code : CodeObject) : Except ClassifyError (List Parameter) :=
  if code.co_flags &&& CO_VARARGS ≠ 0 then
    match code.co_varnames.get? (code.co_argcount + code.co_kwonlyargcount) with
    | some name =>
        Except.ok [({ name := name,
                      annotation := PyVal.none,
                      kind := VAR_POSITIONAL,
                      default := Option.none } : Parameter)]
    | Option.none => Except.error ClassifyError.indexError
  else Except.ok []

/-- The `**kwargs` fragment: empty when `CO_VARKEYWORDS` is clear, otherwise
the single `VAR_KEYWORD` parameter named by raw index
`co_argcount + co_kwonlyargcount + (1 if CO_VARARGS else 0)`, or
`IndexError` when that index is out of range. -/
def varkwPart (code : CodeObject) : Except ClassifyError (List Parameter) :=
  if code.co_flags &&& CO_VARKEYWORDS ≠ 0 then
    match code.co_varnames.get?
        (code.co_argcount + code.co_kwonlyargcount +
          (if code.co_flags &&& CO_VARARGS ≠ 0 then 1 else 0)) with
    | some name =>
        Except.ok [({ name := name,
                      annotation := PyVal.none,
                      kind := VAR_KEYWORD,
                      default := Option.none } : Parameter)]
    | Option.none => Except.error ClassifyError.indexError
  else Except.ok []

theorem extract_parameters_eq (code : CodeObject) :
    extract_parameters code =
      match varargsPart code, varkwPart code with
      | Except.ok va, Except.ok vk =>
          Except.ok (posBlock code ++ va ++ kwBlock code ++ vk)
      | Except.error e, _ => Except.error e
      | Except.ok _, Except.error e => Except.error e := by
  have hdrop :
      (code.co_varnames.take code.co_argcount).drop (code.co_argcount - 0) = [] := by
    apply List.drop_eq_nil_iff.mpr
    simp [List.length_take]
  have htake :
      (code.co_varnames.take code.co_argcount).take (code.co_argcount - 0) =
        code.co_varnames.take code.co_argcount := by
    simp [List.take_take]
  have h5 : extract_parameters code =
      match varargsPart code, varkwPart code with
      | Except.ok va, Except.ok vk =>
          Except.ok (posBlock code ++ [] ++ va ++ kwBlock code ++ vk)
      | Except.error e, _ => Except.error e
      | Except.ok _, Except.error e => Except.error e := by
    simp only [extract_parameters]
    rw [hdrop, htake]
    simp only [List.enum_nil, List.mapM_nil]
    unfold varargsPart varkwPart posBlock kwBlock
    simp only [pyGet, List.find?_nil]
    simp only [pure, Except.pure]
    split <;> split <;> simp_all
  rw [h5]
  cases varargsPart code <;> cases varkwPart code <;> simp

/-- Decomposition of every successful classification into its four blocks. -/
theorem extract_ok_shape (code : CodeObject) (ps : List Parameter)
    (hok : extract_parameters code = Except.ok ps) :
    ∃ va vk, varargsPart code = Except.ok va ∧ varkwPart code = Except.ok vk ∧
      ps = posBlock code ++ va ++ kwBlock code ++ vk := by
  rw [extract_parameters_eq] at hok
  revert hok
  cases hva : varargsPart code <;> cases hvk : varkwPart code <;>
    intro hok <;> simp_all

theorem mem_posBlock (code : CodeObject) (p : Parameter) (hp : p ∈ posBlock code) :
    Parameter.kind p = POSITIONAL_OR_KEYWORD ∧ Parameter.annotation p = PyVal.none ∧
      Parameter.default p = Option.none := by
  simp only [posBlock, List.mem_map] at hp
  obtain ⟨nm, hnm, rfl⟩ := hp
  exact ⟨rfl, rfl, rfl⟩

theorem mem_kwBlock (code : CodeObject) (p : Parameter) (hp : p ∈ kwBlock code) :
    Parameter.kind p = KEYWORD_ONLY ∧ Parameter.annotation p = PyVal.none ∧
      Parameter.default p = some PyVal.none := by
  simp only [kwBlock, List.mem_map] at hp
  obtain ⟨nm, hnm, rfl⟩ := hp
  exact ⟨rfl, rfl, rfl⟩

theorem varargsPart_ok_flag (code : CodeObject) (va : List Parameter)
    (h : varargsPart code = Except.ok va)
    (hf : code.co_flags &&& CO_VARARGS ≠ 0) :
    ∃ nm, code.co_varnames.get? (code.co_argcount + code.co_kwonlyargcount) = some nm ∧
      va = [{ name := nm, annotation := PyVal.none, kind := VAR_POSITIONAL,
              default := Option.none }] := by
  unfold varargsPart at h
  rw [if_pos hf] at h
  revert h
  cases hg : code.co_varnames.get? (code.co_argcount + code.co_kwonlyargcount) <;>
    intro h <;> simp_all

theorem varargsPart_ok_noflag (code : CodeObject) (va : List Parameter)
    (h : varargsPart code = Except.ok va)
    (hf : ¬ code.co_flags &&& CO_VARARGS ≠ 0) : va = [] := by
  unfold varargsPart at h
  rw [if_neg hf] at h
  simp_all

theorem varkwPart_ok_flag (code : CodeObject) (vk : List Parameter)
    (h : varkwPart code = Except.ok vk)
    (hf : code.co_flags &&& CO_VARKEYWORDS ≠ 0) :
    ∃ nm, code.co_varnames.get?
        (code.co_argcount + code.co_kwonlyargcount +
          (if code.co_flags &&& CO_VARARGS ≠ 0 then 1 else 0)) = some nm ∧
      vk = [{ name := nm, annotation := PyVal.none, kind := VAR_KEYWORD,
              default := Option.none }] := by
  unfold varkwPart at h
  rw [if_pos hf] at h
  revert h
  cases hg : code.co_varnames.get?
      (code.co_argcount + code.co_kwonlyargcount +
        (if code.co_flags &&& CO_VARARGS ≠ 0 then 1 else 0)) <;>
    intro h <;> simp_all

theorem varkwPart_ok_noflag (code : CodeObject) (vk : List Parameter)
    (h : varkwPart code = Except.ok vk)
    (hf : ¬ code.co_flags &&& CO_VARKEYWORDS ≠ 0) : vk = [] := by
  unfold varkwPart at h
  rw [if_neg hf] at h
  simp_all

theorem mem_varargsPart (code : CodeObject) (va : List Parameter) (p : Parameter)
    (h : varargsPart code = Except.ok va) (hp : p ∈ va) :
    Parameter.kind p = VAR_POSITIONAL ∧ Parameter.annotation p = PyVal.none ∧
      Parameter.default p = Option.none := by
  by_cases hf : code.co_flags &&& CO_VARARGS ≠ 0
  · obtain ⟨nm, hnm, rfl⟩ := varargsPart_ok_flag code va h hf
    rcases List.mem_singleton.mp hp with rfl
    exact ⟨rfl, rfl, rfl⟩
  · rw [varargsPart_ok_noflag code va h hf] at hp
    exact absurd hp (List.not_mem_nil p)

theorem mem_varkwPart (code : CodeObject) (vk : List Parameter) (p : Parameter)
    (h : varkwPart code = Except.ok vk) (hp : p ∈ vk) :
    Parameter.kind p = VAR_KEYWORD ∧ Parameter.annotation p = PyVal.none ∧
      Parameter.default p = Option.none := by
  by_cases hf : code.co_flags &&& CO_VARKEYWORDS ≠ 0
  · obtain ⟨nm, hnm, rfl⟩ := varkwPart_ok_flag code vk h hf
    rcases List.mem_singleton.mp hp with rfl
    exact ⟨rfl, rfl, rfl⟩
  · rw [varkwPart_ok_noflag code vk h hf] at hp
    exact absurd hp (List.not_mem_nil p)

/-- C10: every successful classification hardcodes its sources: every
parameter's annotation is `None`, no POSITIONAL_OR_KEYWORD parameter
carries a default entry (the with-defaults branch is unreachable), and
every KEYWORD_ONLY parameter's default entry is exactly `None`. -/
theorem c10_hardcoded_sources (code : CodeObject) (ps : List Parameter)
    (hok : extract_parameters code = Except.ok ps) :
    ∀ p ∈ ps, Parameter.annotation p = PyVal.none ∧
      (Parameter.kind p = POSITIONAL_OR_KEYWORD → Parameter.default p = Option.none) ∧
      (Parameter.kind p = KEYWORD_ONLY → Parameter.default p = some PyVal.none) := by
  obtain ⟨va, vk, hva, hvk, rfl⟩ := extract_ok_shape code ps hok
  intro p hp
  simp only [List.append_assoc, List.mem_append] at hp
  rcases hp with hp | hp | hp | hp
  · obtain ⟨hk, ha, hd⟩ := mem_posBlock code p hp
    exact ⟨ha, fun _ => hd, fun h3 => absurd (hk ▸ h3) (by decide)⟩
  · obtain ⟨hk, ha, hd⟩ := mem_varargsPart code va p hva hp
    refine ⟨ha, fun h1 => absurd (hk ▸ h1) (by decide), fun h3 => absurd (hk ▸ h3) (by decide)⟩
  · obtain ⟨hk, ha, hd⟩ := mem_kwBlock code p hp
    exact ⟨ha, fun h1 => absurd (hk ▸ h1) (by decide), fun _ => hd⟩
  · obtain ⟨hk, ha, hd⟩ := mem_varkwPart code vk p hvk hp
    exact ⟨ha, fun h1 => absurd (hk ▸ h1) (by decide), fun h3 => absurd (hk ▸ h3) (by decide)⟩

/-- A list whose members all have a kind other than `k` contributes no `k`
counts. -/
theorem countP_kind_zero (l : List Parameter) (k : Nat)
    (h : ∀ p ∈ l, Parameter.kind p ≠ k) :
    l.countP (fun p => Parameter.kind p == k) = 0 := by
  apply List.countP_eq_zero.mpr
  intro p hp
  simp only [beq_iff_eq]
  exact h p hp

/-- A list whose members all have kind `k` counts its full length. -/
theorem countP_kind_all (l : List Parameter) (k : Nat)
    (h : ∀ p ∈ l, Parameter.kind p = k) :
    l.countP (fun p => Parameter.kind p == k) = l.length := by
  apply List.countP_eq_length.mpr
  intro p hp
  simp only [beq_iff_eq]
  exact h p hp

theorem posBlock_length_of_le (code : CodeObject)
    (h : code.co_argcount ≤ code.co_varnames.length) :
    (posBlock code).length = code.co_argcount := by
  simp only [posBlock, List.length_map, List.length_take]
  omega

/-- C2 (amended): with the default sources hardcoded empty, `D = 0` always:
classification emits exactly `P` POSITIONAL_OR_KEYWORD parameters for the
positional block, all without a default entry, in original order. -/
theorem c2_amended_positional_block (code : CodeObject) (ps : List Parameter)
    (hok : extract_parameters code = Except.ok ps)
    (hlen : code.co_argcount ≤ code.co_varnames.length) :
    ps.take code.co_argcount = posBlock code ∧
    (posBlock code).length = code.co_argcount ∧
    (∀ p ∈ posBlock code, Parameter.kind p = POSITIONAL_OR_KEYWORD ∧
       Parameter.default p = Option.none) ∧
    ps.countP (fun p => Parameter.kind p == POSITIONAL_OR_KEYWORD) =
      code.co_argcount := by
  obtain ⟨va, vk, hva, hvk, rfl⟩ := extract_ok_shape code ps hok
  have hpl := posBlock_length_of_le code hlen
  refine ⟨?_, hpl, ?_, ?_⟩
  · rw [List.append_assoc, List.append_assoc]
    exact List.take_left' hpl
  · intro p hp
    obtain ⟨hk, _, hd⟩ := mem_posBlock code p hp
    exact ⟨hk, hd⟩
  · rw [List.countP_append, List.countP_append, List.countP_append]
    have h1 : (posBlock code).countP
        (fun p => Parameter.kind p == POSITIONAL_OR_KEYWORD) =
        (posBlock code).length :=
      countP_kind_all _ _ (fun p hp => (mem_posBlock code p hp).1)
    have h2 : va.countP (fun p => Parameter.kind p == POSITIONAL_OR_KEYWORD) = 0 :=
      countP_kind_zero _ _ (fun p hp => by
        rw [(mem_varargsPart code va p hva hp).1]; decide)
    have h3 : (kwBlock code).countP
        (fun p => Parameter.kind p == POSITIONAL_OR_KEYWORD) = 0 :=
      countP_kind_zero _ _ (fun p hp => by
        rw [(mem_kwBlock code p hp).1]; decide)
    have h4 : vk.countP (fun p => Parameter.kind p == POSITIONAL_OR_KEYWORD) = 0 :=
      countP_kind_zero _ _ (fun p hp => by
        rw [(mem_varkwPart code vk p hvk hp).1]; decide)
    omega

/-- C8: when the variadic-positional flag is set, exactly one VAR_POSITIONAL
parameter is emitted, at output index `co_argcount` (right after the
positional block, before every KEYWORD_ONLY parameter), named by raw index
`co_argcount + co_kwonlyargcount`; when the variadic-keyword flag is set,
exactly one VAR_KEYWORD parameter is emitted, last, named by raw index
`co_argcount + co_kwonlyargcount + (1 if the variadic-positional flag is
also set else 0)`. -/
theorem c8_variadic_parameters (code : CodeObject) (ps : List Parameter)
    (hok : extract_parameters code = Except.ok ps) :
    (code.co_flags &&& CO_VARARGS ≠ 0 →
       ps.countP (fun p => Parameter.kind p == VAR_POSITIONAL) = 1 ∧
       (∃ p, ps.get? code.co_argcount = some p ∧
          Parameter.kind p = VAR_POSITIONAL ∧
          code.co_varnames.get? (code.co_argcount + code.co_kwonlyargcount) =
            some (Parameter.name p)) ∧
       (∀ i q, ps.get? i = some q → Parameter.kind q = KEYWORD_ONLY →
          code.co_argcount < i)) ∧
    (code.co_flags &&& CO_VARKEYWORDS ≠ 0 →
       ps.countP (fun p => Parameter.kind p == VAR_KEYWORD) = 1 ∧
       (∃ p, ps.getLast? = some p ∧ Parameter.kind p = VAR_KEYWORD ∧
          code.co_varnames.get?
            (code.co_argcount + code.co_kwonlyargcount +
              (if code.co_flags &&& CO_VARARGS ≠ 0 then 1 else 0)) =
            some (Parameter.name p))) := by
  obtain ⟨va, vk, hva, hvk, rfl⟩ := extract_ok_shape code ps hok
  constructor
  · intro hf
    obtain ⟨nm, hnm, rfl⟩ := varargsPart_ok_flag code va hva hf
    have hidx : code.co_argcount + code.co_kwonlyargcount <
        code.co_varnames.length := by
      by_contra hge
      rw [List.get?_eq_none.mpr (by omega)] at hnm
      exact Option.noConfusion hnm
    have hpl : (posBlock code).length = code.co_argcount :=
      posBlock_length_of_le code (by omega)
    refine ⟨?_, ?_, ?_⟩
    · rw [List.countP_append, List.countP_append, List.countP_append]
      have h1 : (posBlock code).countP
          (fun p => Parameter.kind p == VAR_POSITIONAL) = 0 :=
        countP_kind_zero _ _ (fun p hp => by
          rw [(mem_posBlock code p hp).1]; decide)
      have h3 : (kwBlock code).countP
          (fun p => Parameter.kind p == VAR_POSITIONAL) = 0 :=
        countP_kind_zero _ _ (fun p hp => by
          rw [(mem_kwBlock code p hp).1]; decide)
      have h4 : vk.countP (fun p => Parameter.kind p == VAR_POSITIONAL) = 0 :=
        countP_kind_zero _ _ (fun p hp => by
          rw [(mem_varkwPart code vk p hvk hp).1]; decide)
      have h2 : List.countP (fun p => Parameter.kind p == VAR_POSITIONAL)
          [({ name := nm, annotation := PyVal.none, kind := VAR_POSITIONAL,
              default := Option.none } : Parameter)] = 1 := by
        simp [List.countP_cons]
      omega
    · refine ⟨{ name := nm, annotation := PyVal.none, kind := VAR_POSITIONAL,
                default := Option.none }, ?_, rfl, hnm⟩
      rw [List.append_assoc, List.append_assoc,
        List.get?_append_right (Nat.le_of_eq hpl), hpl, Nat.sub_self]
      rfl
    · intro i q hget hkq
      rcases Nat.lt_trichotomy i code.co_argcount with hlt | heq | hgt
      · exfalso
        rw [List.append_assoc, List.append_assoc,
          List.get?_append (hpl ▸ hlt)] at hget
        obtain ⟨hk, _, _⟩ := mem_posBlock code q (List.get?_mem hget)
        rw [hk] at hkq
        exact absurd hkq (by decide)
      · exfalso
        subst heq
        rw [List.append_assoc, List.append_assoc,
          List.get?_append_right (Nat.le_of_eq hpl), hpl, Nat.sub_self,
          List.singleton_append, List.get?_cons_zero, Option.some_inj] at hget
        rw [← hget] at hkq
        simp [VAR_POSITIONAL, KEYWORD_ONLY] at hkq
      · exact hgt
  · intro hf2
    obtain ⟨nm2, hnm2, rfl⟩ := varkwPart_ok_flag code vk hvk hf2
    refine ⟨?_, ?_⟩
    · rw [List.countP_append, List.countP_append, List.countP_append]
      have h1 : (posBlock code).countP
          (fun p => Parameter.kind p == VAR_KEYWORD) = 0 :=
        countP_kind_zero _ _ (fun p hp => by
          rw [(mem_posBlock code p hp).1]; decide)
      have h2 : va.countP (fun p => Parameter.kind p == VAR_KEYWORD) = 0 :=
        countP_kind_zero _ _ (fun p hp => by
          rw [(mem_varargsPart code va p hva hp).1]; decide)
      have h3 : (kwBlock code).countP
          (fun p => Parameter.kind p == VAR_KEYWORD) = 0 :=
        countP_kind_zero _ _ (fun p hp => by
          rw [(mem_kwBlock code p hp).1]; decide)
      have h4 : List.countP (fun p => Parameter.kind p == VAR_KEYWORD)
          [({ name := nm2, annotation := PyVal.none, kind := VAR_KEYWORD,
              default := Option.none } : Parameter)] = 1 := by
        simp [List.countP_cons]
      omega
    · exact ⟨{ name := nm2, annotation := PyVal.none, kind := VAR_KEYWORD,
               default := Option.none },
        List.getLast?_concat _, rfl, hnm2⟩

theorem varargsPart_error (code : CodeObject) (e : ClassifyError)
    (h : varargsPart code = Except.error e) : e = ClassifyError.indexError := by
  unfold varargsPart at h
  revert h
  by_cases hf : code.co_flags &&& CO_VARARGS ≠ 0
  · rw [if_pos hf]
    cases hg : code.co_varnames.get? (code.co_argcount + code.co_kwonlyargcount) <;>
      intro h <;> simp_all
  · rw [if_neg hf]
    intro h
    simp_all

theorem varkwPart_error (code : CodeObject) (e : ClassifyError)
    (h : varkwPart code = Except.error e) : e = ClassifyError.indexError := by
  unfold varkwPart at h
  revert h
  by_cases hf : code.co_flags &&& CO_VARKEYWORDS ≠ 0
  · rw [if_pos hf]
    cases hg : code.co_varnames.get?
        (code.co_argcount + code.co_kwonlyargcount +
          (if code.co_flags &&& CO_VARARGS ≠ 0 then 1 else 0)) <;>
      intro h <;> simp_all
  · rw [if_neg hf]
    intro h
    simp_all

/-- C7 (amended): classification performs no arity validation of its own and
never raises a `MalformedSignature` (no such error exists in the code): its
only failure mode is the generic index error, and in particular a
variadic-keyword flag whose computed name index falls outside the raw name
list produces exactly that `IndexError`. (The negative non-default count
case cannot arise: the positional-defaults source is hardcoded empty, so
the non-default count always equals the positional count.) -/
theorem c7_amended_index_error (code : CodeObject) :
    (∀ e, extract_parameters code = Except.error e → e = ClassifyError.indexError) ∧
    (code.co_flags &&& CO_VARKEYWORDS ≠ 0 →
      code.co_varnames.length ≤
        code.co_argcount + code.co_kwonlyargcount +
          (if code.co_flags &&& CO_VARARGS ≠ 0 then 1 else 0) →
      extract_parameters code = Except.error ClassifyError.indexError) := by
  constructor
  · intro e he
    rw [extract_parameters_eq] at he
    revert he
    cases hva : varargsPart code <;> cases hvk : varkwPart code <;>
      intro he <;> simp_all
    · exact varargsPart_error code _ hva
    · exact varargsPart_error code _ hva
    · exact varkwPart_error code _ hvk
  · intro hf2 hlen
    have hvk2 : varkwPart code = Except.error ClassifyError.indexError := by
      unfold varkwPart
      rw [if_pos hf2, List.get?_eq_none.mpr hlen]
    rw [extract_parameters_eq, hvk2]
    cases hva : varargsPart code with
    | error e => rw [varargsPart_error code e hva]
    | ok va => rfl

/-! ## Characterization of the local slot table -/

/-- Consecutive slot assignments starting at `base`, one per name in order:
the shape the reservation loop of `Method.__init__` produces on fresh keys. -/
def slotsFrom (base : Nat) : List String → List (String × Nat)
  | [] => []
  | n :: tl => (n, base) :: slotsFrom (base + 1) tl

theorem slotsFrom_length (base : Nat) (names : List String) :
    (slotsFrom base names).length = names.length := by
  induction names generalizing base with
  | nil => rfl
  | cons n tl ih => simp [slotsFrom, ih]

theorem slotsFrom_map_snd (base : Nat) (names : List String) :
    (slotsFrom base names).map Prod.snd = List.range' base names.length := by
  induction names generalizing base with
  | nil => rfl
  | cons n tl ih => simp [slotsFrom, List.range'_succ, ih]

theorem dictSet_fresh (d : List (String × Nat)) (k : String) (v : Nat)
    (h : ∀ p ∈ d, p.1 ≠ k) : dictSet d k v = d ++ [(k, v)] := by
  unfold dictSet
  rw [if_neg]
  simp only [List.any_eq_true, beq_iff_eq, not_exists, not_and]
  exact h

theorem foldl_dictSet_fresh (names : List String) :
    ∀ d : List (String × Nat), names.Nodup →
      (∀ n ∈ names, ∀ p ∈ d, p.1 ≠ n) →
      names.foldl (fun d2 n => dictSet d2 n (dictLen d2)) d =
        d ++ slotsFrom d.length names := by
  induction names with
  | nil =>
      intro d hnd hfresh
      simp [slotsFrom]
  | cons n tl ih =>
      intro d hnd hfresh
      have hstep : dictSet d n (dictLen d) = d ++ [(n, d.length)] :=
        dictSet_fresh d n (dictLen d) (fun p hp => hfresh n (by simp) p hp)
      have hfresh2 : ∀ n2 ∈ tl, ∀ p ∈ d ++ [(n, d.length)], p.1 ≠ n2 := by
        intro n2 hn2 p hp
        rcases List.mem_append.mp hp with hp1 | hp1
        · exact hfresh n2 (List.mem_cons_of_mem n hn2) p hp1
        · rcases List.mem_singleton.mp hp1 with rfl
          intro hcontra
          have hn : n = n2 := hcontra
          rw [← hn] at hn2
          exact (List.nodup_cons.mp hnd).1 hn2
      rw [List.foldl_cons, hstep,
        ih (d ++ [(n, d.length)]) (List.Nodup.of_cons hnd) hfresh2]
      simp [slotsFrom, List.append_assoc]

theorem c3_range2 (P : Nat) :
    ([0, 1] : List Nat) ++ List.range' 2 P = List.range (P + 2) := by
  have h0 : ([0, 1] : List Nat) = List.range' 0 2 := rfl
  have h := List.range'_append 0 2 P 1
  rw [List.range_eq_range', h0]
  simpa using h

theorem c3_range3 (P : Nat) :
    ([0, 1, 2] : List Nat) ++ List.range' 3 P = List.range (P + 3) := by
  have h0 : ([0, 1, 2] : List Nat) = List.range' 0 3 := rfl
  have h := List.range'_append 0 3 P 1
  rw [List.range_eq_range', h0]
  simpa using h

/-- C3: `Method.__init__` reserves slots in a fixed order — `self` exactly
when the variant has a receiver, then the hidden positional-container and
keyword-table slots, then one slot per visible parameter in list order —
so, for pairwise distinct parameter names avoiding the reserved names, the
table has `P + 3` entries for the receiver variants and `P + 2` otherwise,
with slot numbers `0, 1, 2, ...` assigned consecutively and never reused. -/
theorem c3_slot_table (kind : MKind) (name : String) (params : List String)
    (returns : Option (List (String × PyVal))) (static : Bool)
    (hnd : params.Nodup)
    (hres : ∀ n ∈ params,
      n ≠ "self" ∧ n ≠ "##__args__##" ∧ n ≠ "##__kwargs__##") :
    Method.localvars (Method.make kind name params returns static) =
      (if hasReceiver kind then
        [("self", 0), ("##__args__##", 1), ("##__kwargs__##", 2)]
       else [("##__args__##", 0), ("##__kwargs__##", 1)]) ++
      slotsFrom (if hasReceiver kind then 3 else 2) params ∧
    (Method.localvars (Method.make kind name params returns static)).length =
      params.length + (if hasReceiver kind then 3 else 2) ∧
    (Method.localvars (Method.make kind name params returns static)).map
        Prod.snd =
      List.range (params.length + (if hasReceiver kind then 3 else 2)) := by
  have h1 : Method.localvars (Method.make kind name params returns static) =
      (if hasReceiver kind then
        [("self", 0), ("##__args__##", 1), ("##__kwargs__##", 2)]
       else [("##__args__##", 0), ("##__kwargs__##", 1)]) ++
      slotsFrom (if hasReceiver kind then 3 else 2) params := by
    show buildLocalvars kind params = _
    cases hrec : hasReceiver kind
    · have hb : buildLocalvars kind params =
          params.foldl (fun d2 n => dictSet d2 n (dictLen d2))
            [("##__args__##", 0), ("##__kwargs__##", 1)] := by
        unfold buildLocalvars
        rw [hrec]
        exact rfl
      have hfresh : ∀ n ∈ params,
          ∀ p ∈ ([("##__args__##", 0), ("##__kwargs__##", 1)] :
            List (String × Nat)), p.1 ≠ n := by
        intro n hn p hp
        obtain ⟨hs, ha, hk⟩ := hres n hn
        simp only [List.mem_cons, List.not_mem_nil, or_false] at hp
        rcases hp with rfl | rfl
        · exact Ne.symm ha
        · exact Ne.symm hk
      rw [hb, foldl_dictSet_fresh params _ hnd hfresh]
      exact rfl
    · have hb : buildLocalvars kind params =
          params.foldl (fun d2 n => dictSet d2 n (dictLen d2))
            [("self", 0), ("##__args__##", 1), ("##__kwargs__##", 2)] := by
        unfold buildLocalvars
        rw [hrec]
        exact rfl
      have hfresh : ∀ n ∈ params,
          ∀ p ∈ ([("self", 0), ("##__args__##", 1), ("##__kwargs__##", 2)] :
            List (String × Nat)), p.1 ≠ n := by
        intro n hn p hp
        obtain ⟨hs, ha, hk⟩ := hres n hn
        simp only [List.mem_cons, List.not_mem_nil, or_false] at hp
        rcases hp with rfl | rfl | rfl
        · exact Ne.symm hs
        · exact Ne.symm ha
        · exact Ne.symm hk
      rw [hb, foldl_dictSet_fresh params _ hnd hfresh]
      exact rfl
  refine ⟨h1, ?_, ?_⟩
  · rw [h1, List.length_append, slotsFrom_length]
    cases hasReceiver kind
    · show 2 + params.length = params.length + 2
      omega
    · show 3 + params.length = params.length + 3
      omega
  · rw [h1]
    cases hasReceiver kind
    · show (0 : Nat) :: 1 :: (slotsFrom 2 params).map Prod.snd =
        List.range (params.length + 2)
      rw [slotsFrom_map_snd]
      exact c3_range2 params.length
    · show (0 : Nat) :: 1 :: 2 :: (slotsFrom 3 params).map Prod.snd =
        List.range (params.length + 3)
      rw [slotsFrom_map_snd]
      exact c3_range3 params.length


/-! ## Characterization of the prologue generators -/

theorem ignore_empty_void_return (l : List Ins) :
    ignore_empty (void_return l) = void_return l := by
  cases l <;> rfl

theorem tweak_plain (m : Method) (hk : Method.kind m = MKind.plainMethod)
    (code : List Ins) (super_name : String) :
    Method.tweak m code super_name =
      unpackSetup m ++ code ++ [Ins.returnVoid] := by
  unfold Method.tweak
  rw [hk]
  rfl

theorem tweak_instance (m : Method) (hk : Method.kind m = MKind.instanceMethod)
    (code : List Ins) (super_name : String) :
    Method.tweak m code super_name =
      [ Ins.aloadName "##__args__##", Ins.iconst 0, Ins.aaload,
        Ins.astoreName "self" ] ++
      (unpackSetup m ++ code ++ [Ins.returnVoid]) := by
  unfold Method.tweak
  rw [hk]
  rfl

theorem tweak_init (m : Method) (hk : Method.kind m = MKind.initMethod)
    (code : List Ins) (super_name : String) :
    Method.tweak m code super_name =
      (unpackSetup m ++
        [Ins.aload0, Ins.invokespecial super_name "<init>" "()V"]) ++
      code ++ [Ins.returnVoid] := by
  unfold Method.tweak
  rw [hk]
  show ignore_empty (void_return
    ((unpackSetup m ++
      [Ins.aload0, Ins.invokespecial super_name "<init>" "()V"]) ++ code)) = _
  rw [ignore_empty_void_return]
  rfl

theorem tweak_main (m : Method) (hk : Method.kind m = MKind.mainMethod)
    (code : List Ins) (super_name : String) :
    Method.tweak m code super_name = code ++ [Ins.returnVoid] := by
  unfold Method.tweak
  rw [hk]
  show ignore_empty (void_return code) = _
  rw [ignore_empty_void_return]
  rfl

/-- One four-step unpack sequence: load the positional-argument container,
push the constant index, `AALOAD`, store into the parameter's named local. -/
def unpackIns (p : Nat × String) : List Ins :=
  [Ins.aloadName "##__args__##", Ins.iconst p.1, Ins.aaload,
   Ins.astoreName p.2]

theorem unpackSetup_eq_flatMap (m : Method) :
    unpackSetup m = (Method.parameters m).enum.flatMap unpackIns := rfl

theorem flatMap_unpackIns_length (names : List String) : ∀ k : Nat,
    ((List.enumFrom k names).flatMap unpackIns).length = 4 * names.length := by
  induction names with
  | nil => intro k; rfl
  | cons n tl ih =>
      intro k
      show (unpackIns (k, n) ++
        (List.enumFrom (k + 1) tl).flatMap unpackIns).length = _
      rw [List.length_append, ih (k + 1)]
      show 4 + 4 * tl.length = 4 * (tl.length + 1)
      omega

theorem flatMap_unpackIns_chunk (names : List String) :
    ∀ (k i : Nat) (nm : String), names.get? i = some nm →
    ((((List.enumFrom k names).flatMap unpackIns).drop (4 * i)).take 4) =
      [Ins.aloadName "##__args__##", Ins.iconst (k + i), Ins.aaload,
       Ins.astoreName nm] := by
  induction names with
  | nil => intro k i nm h; cases h
  | cons n tl ih =>
      intro k i nm h
      cases i with
      | zero =>
          have hn : n = nm := by
            have h0 : (n :: tl).get? 0 = some n := rfl
            rw [h0] at h
            exact Option.some_inj.mp h
          subst hn
          rfl
      | succ j =>
          have hj : tl.get? j = some nm := h
          have h4 : 4 * (j + 1) = 4 + 4 * j := by omega
          rw [h4, ← List.drop_drop]
          have hdrop4 :
              List.drop 4 ((List.enumFrom k (n :: tl)).flatMap unpackIns) =
                (List.enumFrom (k + 1) tl).flatMap unpackIns := rfl
          rw [hdrop4, ih (k + 1) j nm hj]
          have harith : k + 1 + j = k + (j + 1) := by omega
          rw [harith]

theorem unpackSetup_countP_invoke (m : Method) (sn : String) :
    (unpackSetup m).countP
      (fun x => x == Ins.invokespecial sn "<init>" "()V") = 0 := by
  apply List.countP_eq_zero.mpr
  intro x hx
  rw [unpackSetup_eq_flatMap] at hx
  simp only [List.mem_flatMap] at hx
  obtain ⟨p, hp, hxin⟩ := hx
  simp only [unpackIns, List.mem_cons, List.not_mem_nil, or_false] at hxin
  rcases hxin with rfl | rfl | rfl | rfl <;> simp

/-- C1 (amended): the prologue of a plain `Method` with `P` visible
parameters consists of exactly `P` four-step unpack sequences before the
body; an `InstanceMethod` prepends exactly one additional four-step
sequence reading index 0 of the positional-argument container into `self`;
a constructor (`InitMethod`) emits the `P` unpack sequences but no
receiver-unpack sequence — it loads local 0 directly for the superclass
call; and the entry point (`MainMethod`) emits no unpack sequences at all
despite its one visible parameter. The last conjunct pins the unpack
sequences: `4·P` instructions whose `i`-th four-instruction chunk is
exactly load-container, push `i`, array-load, store into parameter `i`. -/
theorem c1_amended_prologue (name : String) (params : List String)
    (returns : Option (List (String × PyVal))) (static : Bool)
    (code : List Ins) (super_name : String) :
    (Method.tweak (Method.make MKind.plainMethod name params returns static)
        code super_name =
      unpackSetup (Method.make MKind.plainMethod name params returns static) ++
        code ++ [Ins.returnVoid]) ∧
    (Method.tweak (InstanceMethod.make name params returns static) code
        super_name =
      [Ins.aloadName "##__args__##", Ins.iconst 0, Ins.aaload,
       Ins.astoreName "self"] ++
      (unpackSetup (InstanceMethod.make name params returns static) ++ code ++
        [Ins.returnVoid])) ∧
    (Method.tweak (InitMethod.make params) code super_name =
      (unpackSetup (InitMethod.make params) ++
        [Ins.aload0, Ins.invokespecial super_name "<init>" "()V"]) ++
      code ++ [Ins.returnVoid]) ∧
    (Method.tweak MainMethod.make code super_name =
      code ++ [Ins.returnVoid]) ∧
    (∀ m : Method, (unpackSetup m).length = 4 * (Method.parameters m).length ∧
      (∀ i nm, (Method.parameters m).get? i = some nm →
        (((unpackSetup m).drop (4 * i)).take 4) =
          [Ins.aloadName "##__args__##", Ins.iconst i, Ins.aaload,
           Ins.astoreName nm])) := by
  refine ⟨tweak_plain _ rfl code super_name,
    tweak_instance _ rfl code super_name,
    tweak_init _ rfl code super_name,
    tweak_main _ rfl code super_name, ?_⟩
  intro m
  constructor
  · rw [unpackSetup_eq_flatMap]
    exact flatMap_unpackIns_length (Method.parameters m) 0
  · intro i nm h
    rw [unpackSetup_eq_flatMap]
    have hc := flatMap_unpackIns_chunk (Method.parameters m) 0 i nm h
    simpa using hc

/-- C4: the constructor prologue always contains exactly one invocation of
the superclass zero-argument initializer (`INVOKESPECIAL super.<init>()V`),
placed right after the `4·P` parameter-unpack instructions (position
`4·P + 1`, after the `ALOAD_0` at `4·P`) and before the user body —
regardless of the body, including an empty body or one that already
contains such a call. -/
theorem c4_super_init_injection (params : List String) (code : List Ins)
    (super_name : String) :
    Method.tweak (InitMethod.make params) code super_name =
      (unpackSetup (InitMethod.make params) ++
        [Ins.aload0, Ins.invokespecial super_name "<init>" "()V"]) ++
      code ++ [Ins.returnVoid] ∧
    (unpackSetup (InitMethod.make params) ++
        [Ins.aload0, Ins.invokespecial super_name "<init>" "()V"]).countP
      (fun x => x == Ins.invokespecial super_name "<init>" "()V") = 1 ∧
    (unpackSetup (InitMethod.make params) ++
        [Ins.aload0, Ins.invokespecial super_name "<init>" "()V"]).get?
      (4 * (Method.parameters (InitMethod.make params)).length) =
      some Ins.aload0 ∧
    (unpackSetup (InitMethod.make params) ++
        [Ins.aload0, Ins.invokespecial super_name "<init>" "()V"]).get?
      (4 * (Method.parameters (InitMethod.make params)).length + 1) =
      some (Ins.invokespecial super_name "<init>" "()V") := by
  have hlen : (unpackSetup (InitMethod.make params)).length =
      4 * (Method.parameters (InitMethod.make params)).length := by
    rw [unpackSetup_eq_flatMap]
    exact flatMap_unpackIns_length _ 0
  refine ⟨tweak_init _ rfl code super_name, ?_, ?_, ?_⟩
  · rw [List.countP_append, unpackSetup_countP_invoke]
    simp [List.countP_cons]
  · rw [List.get?_append_right (by omega), hlen, Nat.sub_self]
    rfl
  · rw [List.get?_append_right (by omega), hlen]
    have h1 : 4 * (Method.parameters (InitMethod.make params)).length + 1 -
        4 * (Method.parameters (InitMethod.make params)).length = 1 := by
      omega
    rw [h1]
    rfl

/-! ## Descriptors, receivers, entry point -/

theorem signature_not_main (m : Method) (h : Method.kind m ≠ MKind.mainMethod) :
    Method.signature m =
      "([Lorg/python/Object;Ljava/util/Hashtable;)" ++
        (if pyGetIsNone (Method.returns m) "annotation" then "V"
         else "Lorg/python/Object;") := by
  unfold Method.signature
  cases hk : Method.kind m <;> simp_all

theorem pyGetIsNone_iff (d : List (String × PyVal)) (k : String) :
    pyGetIsNone d k = true ↔
      (d.find? (fun p => p.1 == k)).map Prod.snd = some PyVal.none := by
  unfold pyGetIsNone
  cases hf : d.find? (fun p => p.1 == k) <;> simp

/-- C5: for every non-entry-point variant the exported descriptor's
parameter part is the fixed pair (boxed-object array, keyword table);
the return token is `V` exactly when the `'annotation'` entry of the
`returns` dict is present with value `None`, and the boxed-object token
otherwise — in particular when the entry is absent. -/
theorem c5_uniform_descriptor (m : Method) (code : List Ins)
    (super_name : String) (h : Method.kind m ≠ MKind.mainMethod) :
    JavaMethod.descriptor (Method.transpile m code super_name) =
      Method.signature m ∧
    (Method.signature m = "([Lorg/python/Object;Ljava/util/Hashtable;)V" ∨
     Method.signature m =
       "([Lorg/python/Object;Ljava/util/Hashtable;)Lorg/python/Object;") ∧
    (Method.signature m = "([Lorg/python/Object;Ljava/util/Hashtable;)V" ↔
      ((Method.returns m).find? (fun p => p.1 == "annotation")).map Prod.snd =
        some PyVal.none) := by
  refine ⟨rfl, ?_, ?_⟩ <;> rw [signature_not_main m h]
  · cases pyGetIsNone (Method.returns m) "annotation"
    · right
      rfl
    · left
      rfl
  · rw [← pyGetIsNone_iff]
    cases hpn : pyGetIsNone (Method.returns m) "annotation"
    · decide
    · decide

/-- C6 (amended): constructing an `InstanceMethod` or `InitMethod` from a
declared parameter list of length zero raises nothing: Python's
`parameters[1:]` on an empty list is the empty list, so the construction
silently yields a callable with an empty visible parameter list (and the
usual three reserved slots); no `MissingReceiverParameter` error exists in
the code. -/
theorem c6_amended_empty_receiver (name : String)
    (returns : Option (List (String × PyVal))) (static : Bool) :
    Method.parameters (InitMethod.make []) = [] ∧
    Method.parameters (InstanceMethod.make name [] returns static) = [] ∧
    Method.localvars (InitMethod.make []) =
      [("self", 0), ("##__args__##", 1), ("##__kwargs__##", 2)] ∧
    Method.localvars (InstanceMethod.make name [] returns static) =
      [("self", 0), ("##__args__##", 1), ("##__kwargs__##", 2)] := by
  exact ⟨rfl, rfl, rfl, rfl⟩

/-- C9: the entry-point variant always exports name `main`, the fixed
descriptor `([Ljava/lang/String;)V`, and the static flag — whatever its
body. -/
theorem c9_entry_point (code : List Ins) (super_name : String) :
    JavaMethod.name (Method.transpile MainMethod.make code super_name) =
      "main" ∧
    JavaMethod.descriptor (Method.transpile MainMethod.make code super_name) =
      "([Ljava/lang/String;)V" ∧
    JavaMethod.static (Method.transpile MainMethod.make code super_name) =
      true := by
  exact ⟨rfl, rfl, rfl⟩

/-! ## Concrete instances -/

/-- The spec scenario `(a, b=1, *args, c, d=2, **kw)` as the code object the
classifier actually receives: positional count 2, keyword-only count 2,
both variadic flags set (`0x4 + 0x8 = 12`), names in code-object order. -/
def c2code : CodeObject :=
  { co_argcount := 2, co_varnames := ["a", "b", "c", "d", "args", "kw"],
    co_kwonlyargcount := 2, co_flags := 12 }

/-- What the classifier actually produces for `c2code`. -/
def c2out : List Parameter :=
  [ { name := "a", annotation := PyVal.none, kind := POSITIONAL_OR_KEYWORD,
      default := Option.none },
    { name := "b", annotation := PyVal.none, kind := POSITIONAL_OR_KEYWORD,
      default := Option.none },
    { name := "args", annotation := PyVal.none, kind := VAR_POSITIONAL,
      default := Option.none },
    { name := "c", annotation := PyVal.none, kind := KEYWORD_ONLY,
      default := some PyVal.none },
    { name := "d", annotation := PyVal.none, kind := KEYWORD_ONLY,
      default := some PyVal.none },
    { name := "kw", annotation := PyVal.none, kind := VAR_KEYWORD,
      default := Option.none } ]

/-- Variadic-keyword flag set with an empty name list: the computed name
index 0 is out of range. -/
def c7code : CodeObject :=
  { co_argcount := 0, co_varnames := [], co_kwonlyargcount := 0,
    co_flags := 8 }

/-- Both variadic flags set but only one name: the variadic-keyword index
`1 + 0 + 1 = 2` is out of range. -/
def c7wcode : CodeObject :=
  { co_argcount := 1, co_varnames := ["a"], co_kwonlyargcount := 0,
    co_flags := 12 }

/-- C1 is false as stated: a constructor (`InitMethod`) with one visible
parameter produces a prologue containing no store into `self` at all — the
claimed extra four-step receiver-unpack sequence is absent (only
`InstanceMethod` has it); and the entry point, a variant with one visible
parameter, performs no unpack sequence either. -/
theorem c1_counterexample :
    Method.tweak (InitMethod.make ["self", "x"]) [] "org/python/Parent" =
      [ Ins.aloadName "##__args__##", Ins.iconst 0, Ins.aaload,
        Ins.astoreName "x", Ins.aload0,
        Ins.invokespecial "org/python/Parent" "<init>" "()V",
        Ins.returnVoid ] ∧
    (Method.tweak (InitMethod.make ["self", "x"]) []
        "org/python/Parent").countP (fun x => x == Ins.astoreName "self") =
      0 ∧
    Method.tweak MainMethod.make [] "org/python/Parent" = [Ins.returnVoid] ∧
    (Method.parameters MainMethod.make).length = 1 := by
  exact ⟨rfl, rfl, rfl, rfl⟩

/-- C2 is false on the spec's own scenario: with the default sources
hardcoded away, classifying `(a, b=1, *args, c, d=2, **kw)` gives `b` no
default entry at all (not `1`) and gives `d` the default `None` (not `2`). -/
theorem c2_counterexample :
    extract_parameters c2code = Except.ok c2out ∧
    (c2out.get? 1).map Parameter.default = some Option.none ∧
    (c2out.get? 4).map Parameter.default = some (some PyVal.none) ∧
    some (Option.none : Option PyVal) ≠ some (some (PyVal.int 1)) ∧
    some (some PyVal.none) ≠ some (some (PyVal.int 2)) := by
  exact ⟨rfl, rfl, rfl, by decide, by decide⟩

/-- C6 is false: construction from an empty declared parameter list raises
nothing and silently yields a callable with an empty visible parameter
list. -/
theorem c6_counterexample :
    Method.parameters (InitMethod.make []) = [] ∧
    Method.name (InitMethod.make []) = "__init__" ∧
    Method.parameters (InstanceMethod.make "f" [] Option.none false) = [] ∧
    Method.name (InstanceMethod.make "f" [] Option.none false) = "f" := by
  exact ⟨rfl, rfl, rfl, rfl⟩

/-- C7 is false: on arity metadata the spec calls malformed (variadic
keyword flag set, name list too short), classification fails with the
generic `IndexError` — `MalformedSignature` does not exist in the code. -/
theorem c7_counterexample :
    extract_parameters c7code = Except.error ClassifyError.indexError := by
  rfl

/-! ## Witnesses -/

theorem c1_amended_prologue_witness :
    ((unpackSetup (InstanceMethod.make "f" ["self", "x"] Option.none
        false)).drop (4 * 0)).take 4 =
      [Ins.aloadName "##__args__##", Ins.iconst 0, Ins.aaload,
       Ins.astoreName "x"] :=
  ((c1_amended_prologue "f" ["self", "x"] Option.none false [] "S").2.2.2.2
    (InstanceMethod.make "f" ["self", "x"] Option.none false)).2 0 "x" rfl

theorem c2_amended_positional_block_witness :
    c2out.countP (fun p => Parameter.kind p == POSITIONAL_OR_KEYWORD) = 2 :=
  (c2_amended_positional_block c2code c2out rfl (by decide)).2.2.2

theorem c3_slot_table_witness :
    (Method.localvars (Method.make MKind.instanceMethod "f" ["x", "y"]
        Option.none false)).length = 5 :=
  (c3_slot_table MKind.instanceMethod "f" ["x", "y"] Option.none false
    (by decide) (by decide)).2.1

theorem c5_uniform_descriptor_witness :
    Method.signature (InitMethod.make ["self"]) =
      "([Lorg/python/Object;Ljava/util/Hashtable;)V" :=
  ((c5_uniform_descriptor (InitMethod.make ["self"]) [] "S"
    (by decide)).2.2).mpr (by decide)

theorem c7_amended_index_error_witness :
    extract_parameters c7wcode = Except.error ClassifyError.indexError :=
  (c7_amended_index_error c7wcode).2 (by decide) (by decide)

theorem c8_variadic_parameters_witness :
    c2out.countP (fun p => Parameter.kind p == VAR_POSITIONAL) = 1 ∧
    c2out.countP (fun p => Parameter.kind p == VAR_KEYWORD) = 1 :=
  ⟨((c8_variadic_parameters c2code c2out rfl).1 (by decide)).1,
   ((c8_variadic_parameters c2code c2out rfl).2 (by decide)).1⟩

theorem c10_hardcoded_sources_witness :
    Parameter.default ({ name := "c",
                         annotation := PyVal.none,
                         kind := KEYWORD_ONLY,
                         default := some PyVal.none } : Parameter) =
      some PyVal.none :=
  (c10_hardcoded_sources c2code c2out rfl
    { name := "c",
      annotation := PyVal.none,
      kind := KEYWORD_ONLY,
      default := some PyVal.none }
    (by decide)).2.2 rfl
